import Mathlib

/-!
Verification of the AMReX FFT module (R2C and R2X transform engines and the
Poisson solvers built on them) against its natural-language specification.

The definitions below are shallow embeddings of the C++ sources:
  - `Src/FFT/AMReX_FFT.cpp` (class `R2C`),
  - the unnamed header holding class `R2X`,
  - `Src/FFT/AMReX_FFT_Poisson.H` (classes `Poisson` and `PoissonHybrid`).
All models assume a 3-D build (`AMREX_SPACEDIM == 3`), which is the
configuration the claims quantify over.  Boxes are modelled as closed integer
hyper-rectangles; machine `int`/`Long` arithmetic never overflows at the sizes
involved, so `Nat`/`Int` are used directly.
-/

namespace AmrexFFT

/-- The per-endpoint boundary condition of the FFT module
(`amrex::FFT::Boundary`). -/
inductive Boundary where
  | periodic
  | even
  | odd
deriving DecidableEq, Repr, Fintype

/-- A boundary-condition pair `(B_lo, B_hi)` for one axis
(`std::pair<Boundary,Boundary>`). -/
abbrev BCPair := Boundary × Boundary

/-- An integer index triple (`amrex::IntVect` in a 3-D build). -/
structure IntVect where
  x : Int
  y : Int
  z : Int
deriving DecidableEq, Repr

/-- A closed cell-centered integer box `[small, big]` (`amrex::Box`, 3-D,
index type cell-centered as all boxes in this module are). -/
structure Box3 where
  small : IntVect
  big : IntVect
deriving DecidableEq, Repr

/-- The zero index vector, used for `domain.smallEnd() == 0` checks. -/
def IntVect.zero : IntVect := ⟨0, 0, 0⟩

/-- The boundary-condition check performed on each axis by the `R2X`
constructor: `if (bc.first == periodic || bc.second == periodic)
AMREX_ALWAYS_ASSERT(bc.first == bc.second)`.  Returns `true` when the
assertion passes. -/
def r2xBCCheckAxis (bc : BCPair) : Bool :=
  if bc.1 = Boundary.periodic ∨ bc.2 = Boundary.periodic then
    bc.1 = bc.2
  else
    true

/-- The conjunction of the per-axis boundary checks of the `R2X` constructor
over the three axes. -/
def r2xBCCheck (bc0 bc1 bc2 : BCPair) : Bool :=
  r2xBCCheckAxis bc0 && r2xBCCheckAxis bc1 && r2xBCCheckAxis bc2

/-- An axis has exactly one periodic endpoint (the failure condition named by
the spec as `InvalidBoundary`). -/
def exactlyOnePeriodic (bc : BCPair) : Prop :=
  (bc.1 = Boundary.periodic ∧ bc.2 ≠ Boundary.periodic) ∨
  (bc.1 ≠ Boundary.periodic ∧ bc.2 = Boundary.periodic)

instance (bc : BCPair) : Decidable (exactlyOnePeriodic bc) := by
  unfold exactlyOnePeriodic; infer_instance

/-- Validity of one axis of a boundary-condition array: either both endpoints
are periodic or neither is. -/
def validBC (bc : BCPair) : Prop :=
  bc.1 = Boundary.periodic ↔ bc.2 = Boundary.periodic

instance (bc : BCPair) : Decidable (validBC bc) := by
  unfold validBC; infer_instance

/-- The state of an `R2X` engine that its `scalingFactor` method reads: the
original domain `m_dom_0` (represented by its three side lengths) and the
boundary-condition array `m_bc`. -/
structure R2XDom where
  n0 : Nat
  n1 : Nat
  n2 : Nat
  bc0 : BCPair
  bc1 : BCPair
  bc2 : BCPair

/-- The denominator accumulated by `R2X::scalingFactor`:
`r = m_dom_0.numPts()`, then for each axis `r *= 2` when
`m_bc[idim].first != periodic && m_dom_0.length(idim) > 1`. -/
def scalingDenom (e : R2XDom) : Nat :=
  let r := e.n0 * e.n1 * e.n2
  let r := if e.bc0.1 ≠ Boundary.periodic ∧ 1 < e.n0 then r * 2 else r
  let r := if e.bc1.1 ≠ Boundary.periodic ∧ 1 < e.n1 then r * 2 else r
  let r := if e.bc2.1 ≠ Boundary.periodic ∧ 1 < e.n2 then r * 2 else r
  r

/-- `R2X::scalingFactor`, returning `T(1)/T(r)` as an exact rational. -/
def scalingFactor (e : R2XDom) : ℚ :=
  1 / (scalingDenom e : ℚ)

/-- An axis whose boundary condition is non-periodic, in the words of the
claim (neither endpoint periodic). -/
def nonPeriodicAxis (bc : BCPair) : Prop :=
  bc.1 ≠ Boundary.periodic ∧ bc.2 ≠ Boundary.periodic

instance (bc : BCPair) : Decidable (nonPeriodicAxis bc) := by
  unfold nonPeriodicAxis; infer_instance

/-- The product `∏ 2` over the axes whose boundary condition is non-periodic
and whose length exceeds one, as written in the spec formula for the scaling
factor. -/
def claimTwoProd (e : R2XDom) : Nat :=
  (if nonPeriodicAxis e.bc0 ∧ 1 < e.n0 then 2 else 1) *
  (if nonPeriodicAxis e.bc1 ∧ 1 < e.n1 then 2 else 1) *
  (if nonPeriodicAxis e.bc2 ∧ 1 < e.n2 then 2 else 1)

/-- The domain shape assertions of the `R2X` constructor in a 3-D build:
`smallEnd == 0 && length(0) > 1` (cell-centeredness is implicit in the box
model), then `length(1) > 1 || length(2) == 1`, then the per-axis loop
asserting `length(idim) > 1` for every axis.  Returns `true` when every
assertion passes. -/
def r2xDomainCheck (lo : IntVect) (n0 n1 n2 : Nat) : Bool :=
  (decide (lo = IntVect.zero) && decide (1 < n0)) &&
  (decide (1 < n1) || decide (n2 = 1)) &&
  (decide (1 < n0) && decide (1 < n1) && decide (1 < n2))

/-- The domain shape assertions of the `R2C` constructor in a 3-D build:
`smallEnd == 0 && length(0) > 1` (cell-centeredness implicit), then
`length(2) > 1 || !batch_mode`, then `length(1) > 1 || length(2) == 1`.
Returns `true` when every assertion passes. -/
def r2cDomainCheck (lo : IntVect) (n0 n1 n2 : Nat) (batch : Bool) : Bool :=
  (decide (lo = IntVect.zero) && decide (1 < n0)) &&
  (decide (1 < n2) || !batch) &&
  (decide (1 < n1) || decide (n2 = 1))

/-- The shape conditions named by claim C6: `lo = 0`, `N0 > 1`, and (for a
3-D non-batch transform) `N1 > 1` whenever `N2 > 1`.  The claim states that
construction succeeds exactly on domains satisfying these. -/
def c6ClaimPred (lo : IntVect) (n0 n1 n2 : Nat) (batch : Bool) : Bool :=
  decide (lo = IntVect.zero) && decide (1 < n0) &&
  (batch || !(decide (1 < n2) && decide (n1 ≤ 1)))

/-- The part of an `amrex::Geometry` that the Poisson solvers read: the
domain (lower corner and side lengths), the periodicity flags, and the cell
sizes. -/
structure Geometry where
  lo : IntVect
  n0 : Nat
  n1 : Nat
  n2 : Nat
  per0 : Bool
  per1 : Bool
  per2 : Bool
  dx0 : ℝ
  dx1 : ℝ
  dx2 : ℝ

/-- Everything the `PoissonHybrid` constructor checks in a 3-D build: its own
assertion `geom.isPeriodic(0) && geom.isPeriodic(1)`, plus the domain shape
assertions of the member `R2C` engine it constructs on `geom.Domain()` with
`batch_mode = true`.  Returns `true` when construction succeeds. -/
def poissonHybridCtorCheck (g : Geometry) : Bool :=
  (g.per0 && g.per1) && r2cDomainCheck g.lo g.n0 g.n1 g.n2 true

/-- A geometry with zero cell size along z that is periodic in x and y, on
the cell-centered domain `[0,3]^3`. -/
def geomZeroDz : Geometry :=
  ⟨IntVect.zero, 4, 4, 4, true, true, false, 1, 1, 0⟩

/-- The sequence of vendor-plan handles on which `destroy()` is invoked by
the destructors `R2C::~R2C` and `R2X::~R2X` (the two bodies are identical):
for each axis the backward plan is destroyed when its handle differs from
the forward one, and then the three forward plans are destroyed. -/
def planDestroySeq (fwdX bwdX fwdY bwdY fwdZ bwdZ : Nat) : List Nat :=
  (if bwdX ≠ fwdX then [bwdX] else []) ++
  (if bwdY ≠ fwdY then [bwdY] else []) ++
  (if bwdZ ≠ fwdZ then [bwdZ] else []) ++
  [fwdX, fwdY, fwdZ]

/-- The closed integer interval `[lo, hi]` as a list. -/
def intRange (lo hi : Int) : List Int :=
  (List.range (hi + 1 - lo).toNat).map fun (n : Nat) => lo + (n : Int)

/-- The cells of a box, as iterated by `amrex::ParallelFor` (first index
fastest). -/
def Box3.cells (b : Box3) : List IntVect :=
  (intRange b.small.z b.big.z).flatMap fun k =>
    (intRange b.small.y b.big.y).flatMap fun j =>
      (intRange b.small.x b.big.x).map fun i => IntVect.mk i j k

/-- The state of an `R2C` engine that `post_forward_doit` reads: the
`batch_mode` flag and the local box of the innermost spectral array of each
phase (`none` when the rank owns no fab, or the phase has no array). -/
structure R2CSpectralState where
  batch : Bool
  czBox : Option Box3
  cyBox : Option Box3
  cxBox : Option Box3

/-- `R2C::post_forward_doit`: `none` models the unconditional
`amrex::Abort` taken when `m_info.batch_mode` is true; otherwise the list of
callback invocations, each a pair of the indices passed to the callback and
the storage indices of the spectral cell the value reference points at.  The
3-D branch iterates `m_cz` (stored in `(z,x,y)` order) over cells
`(iz,jx,ky)` and calls `post_forward(jx,ky,iz, a(iz,jx,ky))`; the 2-D branch
iterates `m_cy` (stored in `(y,x,z)` order) over `(iy,jx,k)` and calls
`post_forward(jx,iy,k, a(iy,jx,k))`; the 1-D branch passes indices
unchanged. -/
def postForwardCalls (s : R2CSpectralState) : Option (List (IntVect × IntVect)) :=
  if s.batch then
    none
  else
    some (match s.czBox with
      | some b => (Box3.cells b).map fun c => (⟨c.y, c.z, c.x⟩, c)
      | none => match s.cyBox with
        | some b => (Box3.cells b).map fun c => (⟨c.y, c.x, c.z⟩, c)
        | none => match s.cxBox with
          | some b => (Box3.cells b).map fun c => (c, c)
          | none => [])

/-- `Swap01` applied to the two corners of a box, as done to each `m_cy` box
in `getSpectralDataLayout`. -/
def swap01Box (b : Box3) : Box3 :=
  ⟨⟨b.small.y, b.small.x, b.small.z⟩, ⟨b.big.y, b.big.x, b.big.z⟩⟩

/-- The unpermutation applied to each `m_cz` box in `getSpectralDataLayout`:
`swap(v[0],v[1])` then `swap(v[1],v[2])` on both corners, taking `(a,b,c)`
to `(b,c,a)`. -/
def unpermuteZBox (b : Box3) : Box3 :=
  ⟨⟨b.small.y, b.small.z, b.small.x⟩, ⟨b.big.y, b.big.z, b.big.x⟩⟩

/-- The state of an `R2C` engine that `getSpectralDataLayout` reads: the box
arrays of the three spectral phases and their distribution maps (rank per
box). -/
structure R2CLayoutState where
  cx : List Box3
  cy : List Box3
  cz : List Box3
  dmx : List Nat
  dmy : List Nat
  dmz : List Nat

/-- `R2C::getSpectralDataLayout` in a 3-D build, modelled token for token:
the guard of the second branch is the double negation `!!m_cy.empty()`
exactly as in the source, not `!m_cy.empty()`. -/
def getSpectralDataLayout (s : R2CLayoutState) : List Box3 × List Nat :=
  if !s.cz.isEmpty then
    (s.cz.map unpermuteZBox, s.dmz)
  else if !(!s.cy.isEmpty) then
    (s.cy.map swap01Box, s.dmy)
  else
    (s.cx, s.dmx)

/-- The spectral layout state produced by the `R2C` constructor on a single
rank (so that `amrex::decompose(domain, 1, keep_dims)`, which returns at
most one subbox covering the domain, yields the whole domain).  Following
the constructor: `m_cx` lives on the x-pencil boxes with the upper x bound
lowered to `N0/2`; `m_cy` is defined on `m_spectral_domain_y` only when
`N1 > 1`; `m_cz` is defined on `m_spectral_domain_z` only when `N1 > 1` and
the transform is non-batch with `N2 > 1`. -/
def r2cConstructSerial (n0 n1 n2 : Nat) (batch : Bool) : R2CLayoutState :=
  let sdx : Box3 := ⟨IntVect.zero, ⟨((n0 / 2 : Nat) : Int), (n1 : Int) - 1, (n2 : Int) - 1⟩⟩
  let sdy : Box3 := ⟨IntVect.zero, ⟨(n1 : Int) - 1, ((n0 / 2 : Nat) : Int), (n2 : Int) - 1⟩⟩
  let sdz : Box3 := ⟨IntVect.zero, ⟨(n2 : Int) - 1, ((n0 / 2 : Nat) : Int), (n1 : Int) - 1⟩⟩
  { cx := [sdx]
  , cy := if 1 < n1 then [sdy] else []
  , cz := if 1 < n1 ∧ (batch = false ∧ 1 < n2) then [sdz] else []
  , dmx := [0]
  , dmy := if 1 < n1 then [0] else []
  , dmz := if 1 < n1 ∧ (batch = false ∧ 1 < n2) then [0] else [] }

/-- Modelled from the spec: the spectral layout state after constructing
`R2C` on the 8 x 8 x 1 domain with two ranks.  `amrex::decompose`
(DomainDecomposer, spec section 4.1) is not under `src/`; per the spec it
keeps axis 0 undivided and splits the remaining axes into approximately
balanced subboxes.  The real domain `[0,7] x [0,7]` splits along y into
`[0,7] x [0,3]` and `[0,7] x [4,7]`, so `m_cx` (upper x bound lowered to
`N0/2 = 4`) holds `[0,4] x [0,3]` and `[0,4] x [4,7]`; the spectral y-domain
`[0,7] x [0,4]` splits along its second axis into `[0,7] x [0,2]` and
`[0,7] x [3,4]`.  (Any two-piece split of `[0,4]` gives `m_cy` boxes whose
`Swap01` images differ from the `m_cx` boxes, since the former span the full
`[0,7]` in their second coordinate.)  `m_cz` is empty because `N2 = 1`. -/
def r2cState2d2ranks : R2CLayoutState :=
  { cx := [⟨⟨0, 0, 0⟩, ⟨4, 3, 0⟩⟩, ⟨⟨0, 4, 0⟩, ⟨4, 7, 0⟩⟩]
  , cy := [⟨⟨0, 0, 0⟩, ⟨7, 2, 0⟩⟩, ⟨⟨0, 3, 0⟩, ⟨7, 4, 0⟩⟩]
  , cz := []
  , dmx := [0, 1]
  , dmy := [0, 1]
  , dmz := [] }

/-- The inputs `Poisson::solve` reads from its members: the domain lengths
and cell sizes of `m_geom`, and the boundary conditions `m_bc` (shared with
the member engine `m_r2x`, which is constructed on the same domain). -/
structure PoissonInput where
  n0 : Nat
  n1 : Nat
  n2 : Nat
  dx0 : ℝ
  dx1 : ℝ
  dx2 : ℝ
  bc0 : BCPair
  bc1 : BCPair
  bc2 : BCPair

/-- The `R2XDom` of the member engine `m_r2x` of a `Poisson` solver. -/
def r2xDomOf (p : PoissonInput) : R2XDom :=
  ⟨p.n0, p.n1, p.n2, p.bc0, p.bc1, p.bc2⟩

/-- The per-axis factor `fac` of `Poisson::solve`: initialised to
`pi / length(idim)` and multiplied by 2 when `m_bc[idim].first` is
periodic. -/
noncomputable def poissonFac (nd : Nat) (bc : BCPair) : ℝ :=
  let f := Real.pi / (nd : ℝ)
  if bc.1 = Boundary.periodic then f * 2 else f

/-- The per-axis `offset` of `Poisson::solve`: initialised to 0, set to 1
when both endpoints are odd, and to 0.5 when one endpoint is odd and the
other even. -/
noncomputable def poissonOffset (bc : BCPair) : ℝ :=
  if bc.1 = Boundary.odd ∧ bc.2 = Boundary.odd then 1
  else if (bc.1 = Boundary.odd ∧ bc.2 = Boundary.even) ∨
          (bc.1 = Boundary.even ∧ bc.2 = Boundary.odd) then 0.5
  else 0

/-- The post-forward callback installed by `Poisson::solve` on the member
engine: with `a = fac[0]*(i+offset[0])` (and similarly `b`, `c`), it forms
`k2 = dxfac[0]*(cos a - 1) + dxfac[1]*(cos b - 1) + dxfac[2]*(cos c - 1)`
where `dxfac[d] = 2/CellSize(d)^2`, divides the spectral value by `k2` when
`k2 != 0`, and multiplies by `m_r2x.scalingFactor()`. -/
noncomputable def poissonSolveCallback (p : PoissonInput) (i j k : Int) (v : ℂ) : ℂ :=
  let a := poissonFac p.n0 p.bc0 * ((i : ℝ) + poissonOffset p.bc0)
  let b := poissonFac p.n1 p.bc1 * ((j : ℝ) + poissonOffset p.bc1)
  let c := poissonFac p.n2 p.bc2 * ((k : ℝ) + poissonOffset p.bc2)
  let k2 := (2 / (p.dx0 * p.dx0)) * (Real.cos a - 1)
          + (2 / (p.dx1 * p.dx1)) * (Real.cos b - 1)
          + (2 / (p.dx2 * p.dx2)) * (Real.cos c - 1)
  let v1 := if k2 ≠ 0 then v / (k2 : ℂ) else v
  v1 * ((scalingFactor (r2xDomOf p) : ℚ) : ℂ)

/-- The factor `fac_d` in the words of claim C4: `2 pi / Nd` for a periodic
axis and `pi / Nd` otherwise. -/
noncomputable def claimFacD (nd : Nat) (bc : BCPair) : ℝ :=
  if bc.1 = Boundary.periodic then 2 * Real.pi / (nd : ℝ) else Real.pi / (nd : ℝ)

/-- The shift `delta_d` in the words of claim C4: 0 for a periodic or
even-even axis, 0.5 for mixed even/odd, 1 for odd-odd. -/
noncomputable def claimDelta (bc : BCPair) : ℝ :=
  if bc.1 = Boundary.periodic ∨ (bc.1 = Boundary.even ∧ bc.2 = Boundary.even) then 0
  else if (bc.1 = Boundary.even ∧ bc.2 = Boundary.odd) ∨
          (bc.1 = Boundary.odd ∧ bc.2 = Boundary.even) then 0.5
  else 1

/-- The angle `alpha_d = fac_d * (index_d + delta_d)` of claim C4. -/
noncomputable def claimAlpha (nd : Nat) (bc : BCPair) (idx : Int) : ℝ :=
  claimFacD nd bc * ((idx : ℝ) + claimDelta bc)

/-- The discrete Laplacian eigenvalue of claim C4:
`lambda = sum_d (2/dx_d^2) * (cos(alpha_d) - 1)`. -/
noncomputable def claimLambda (p : PoissonInput) (i j k : Int) : ℝ :=
  (2 / (p.dx0 * p.dx0)) * (Real.cos (claimAlpha p.n0 p.bc0 i) - 1)
  + (2 / (p.dx1 * p.dx1)) * (Real.cos (claimAlpha p.n1 p.bc1 j) - 1)
  + (2 / (p.dx2 * p.dx2)) * (Real.cos (claimAlpha p.n2 p.bc2 k) - 1)

/-- A concrete all-periodic Poisson input on the domain `4^3` with unit
cell sizes. -/
noncomputable def poissonAllPeriodicInput : PoissonInput :=
  ⟨4, 4, 4, 1, 1, 1,
   (Boundary.periodic, Boundary.periodic),
   (Boundary.periodic, Boundary.periodic),
   (Boundary.periodic, Boundary.periodic)⟩

end AmrexFFT

namespace AmrexFFT

theorem scalingDenom_eq (e : R2XDom)
    (h0 : validBC e.bc0) (h1 : validBC e.bc1) (h2 : validBC e.bc2) :
    scalingDenom e = e.n0 * e.n1 * e.n2 * claimTwoProd e := by
  have e0 : (e.bc0.1 ≠ Boundary.periodic ∧ 1 < e.n0) ↔ (nonPeriodicAxis e.bc0 ∧ 1 < e.n0) := by
    unfold nonPeriodicAxis; unfold validBC at h0; tauto
  have e1 : (e.bc1.1 ≠ Boundary.periodic ∧ 1 < e.n1) ↔ (nonPeriodicAxis e.bc1 ∧ 1 < e.n1) := by
    unfold nonPeriodicAxis; unfold validBC at h1; tauto
  have e2 : (e.bc2.1 ≠ Boundary.periodic ∧ 1 < e.n2) ↔ (nonPeriodicAxis e.bc2 ∧ 1 < e.n2) := by
    unfold nonPeriodicAxis; unfold validBC at h2; tauto
  simp only [scalingDenom, claimTwoProd]
  simp_rw [e0, e1, e2]
  split_ifs <;> ring

/-- Claim C1: for every validly constructed `R2X` engine on a domain of size
`N0 x N1 x N2` with boundary conditions `bc`, `scalingFactor()` returns
exactly `1 / (N0 * N1 * N2 * ∏ 2)` where the product of twos ranges over the
axes whose boundary condition is non-periodic and whose length exceeds 1. -/
theorem c1_scaling_factor (e : R2XDom)
    (h0 : validBC e.bc0) (h1 : validBC e.bc1) (h2 : validBC e.bc2) :
    scalingFactor e = 1 / ((e.n0 * e.n1 * e.n2 * claimTwoProd e : Nat) : ℚ) := by
  unfold scalingFactor
  rw [scalingDenom_eq e h0 h1 h2]

/-- Witness for C1 at the concrete engine `(4,4,4)` with boundary conditions
periodic, (even,odd), (odd,odd). -/
theorem c1_scaling_factor_witness :
    (validBC ((Boundary.periodic, Boundary.periodic) : BCPair) ∧
     validBC ((Boundary.even, Boundary.odd) : BCPair) ∧
     validBC ((Boundary.odd, Boundary.odd) : BCPair)) ∧
    scalingFactor ⟨4, 4, 4, (Boundary.periodic, Boundary.periodic),
                   (Boundary.even, Boundary.odd), (Boundary.odd, Boundary.odd)⟩ =
      1 / ((4 * 4 * 4 * claimTwoProd ⟨4, 4, 4,
             (Boundary.periodic, Boundary.periodic),
             (Boundary.even, Boundary.odd), (Boundary.odd, Boundary.odd)⟩ : Nat) : ℚ) :=
  ⟨⟨by decide, by decide, by decide⟩,
   c1_scaling_factor _ (by decide) (by decide) (by decide)⟩

/-- Counterexample to claim C3: on the domain `4 x 1 x 1` (with `N0 > 1` and
`N1 = N2 = 1`) the `R2X` constructor does not succeed: its per-axis loop
asserts `length(idim) > 1` for every axis, which fails, so the engine aborts
before `forwardThenBackward` could ever run. -/
theorem c3_construction_fails_cex :
    r2xDomainCheck IntVect.zero 4 1 1 = false := by decide

/-- Claim C3 as amended: for every `R2X` domain with `N0 > 1` but `N1 = 1`
or `N2 = 1`, construction fails its length assertions (the constructor
asserts `length(idim) > 1` for every axis), so the reduced-dimension
callback dispatch in `forwardThenBackward` is unreachable. -/
theorem c3_reduced_domain_rejected (lo : IntVect) (n0 n1 n2 : Nat)
    (_hn0 : 1 < n0) (h : n1 = 1 ∨ n2 = 1) :
    r2xDomainCheck lo n0 n1 n2 = false := by
  rcases h with h | h <;> subst h <;> simp [r2xDomainCheck]

/-- Witness for the amended C3 at the concrete domain `4 x 2 x 1`. -/
theorem c3_reduced_domain_rejected_witness :
    ((1 : Nat) < 4 ∧ ((2 : Nat) = 1 ∨ (1 : Nat) = 1)) ∧
    r2xDomainCheck IntVect.zero 4 2 1 = false :=
  ⟨⟨by decide, Or.inr rfl⟩,
   c3_reduced_domain_rejected IntVect.zero 4 2 1 (by decide) (Or.inr rfl)⟩

/-- Counterexample to claim C6: the domain `4 x 4 x 1` at `lo = 0` with
`batch_mode = true` satisfies all three shape conditions named by the claim,
yet the `R2C` constructor shape checks fail (the constructor also asserts
`length(2) > 1 || !batch_mode`, which the claim omits). -/
theorem c6_shape_check_cex :
    c6ClaimPred IntVect.zero 4 4 1 true = true ∧
    r2cDomainCheck IntVect.zero 4 4 1 true = false := by decide

/-- Claim C6 as amended: `R2C` construction fails its shape checks exactly
when `lo ≠ 0`, or `N0 ≤ 1`, or (`batch_mode` and `N2 ≤ 1`), or
(`N1 ≤ 1` and `N2 ≠ 1`); in particular the `N1`/`N2` condition applies in
batch mode too, and batch mode additionally requires `N2 > 1`. -/
theorem c6_shape_check_amended (lo : IntVect) (n0 n1 n2 : Nat) (batch : Bool) :
    r2cDomainCheck lo n0 n1 n2 batch = false ↔
      (lo ≠ IntVect.zero ∨ n0 ≤ 1 ∨ (batch = true ∧ n2 ≤ 1) ∨
       (n1 ≤ 1 ∧ n2 ≠ 1)) := by
  cases batch <;> by_cases hlo : lo = IntVect.zero <;>
    simp [r2cDomainCheck, hlo, decide_eq_false_iff_not, Nat.not_lt] <;>
    omega

/-- Counterexample to claim C9: the geometry `geomZeroDz` has `Δz = 0` and
is periodic in x and y on the domain `[0,3]^3`, and every check performed at
`PoissonHybrid` construction passes: `Δz` is never examined, so construction
succeeds rather than failing. -/
theorem c9_ctor_accepts_zero_dz :
    geomZeroDz.dx2 = 0 ∧ poissonHybridCtorCheck geomZeroDz = true :=
  ⟨rfl, by decide⟩

/-- Claim C9 as amended: `PoissonHybrid` construction checks only the x/y
periodicity of the geometry and the shape of the domain handed to its
batch-mode `R2C` member; the cell size along z is not read, so the check
result is unchanged under any replacement of `Δz` and a zero `Δz` is not
rejected (the division by `Δz` happens unguarded later, inside `solve`). -/
theorem c9_ctor_ignores_dz :
    ∀ (g : Geometry) (d : ℝ),
      poissonHybridCtorCheck { g with dx2 := d } = poissonHybridCtorCheck g :=
  fun _ _ => rfl

/-- Claim C10: for every `R2C` engine state with `batch_mode = true`, the
post-forward step aborts unconditionally, before the user callback is ever
invoked, whatever the spectral state. -/
theorem c10_batch_mode_aborts (s : R2CSpectralState) (h : s.batch = true) :
    postForwardCalls s = none := by
  simp [postForwardCalls, h]

/-- Witness for C10 at a concrete batch-mode state. -/
theorem c10_batch_mode_aborts_witness :
    (R2CSpectralState.mk true none none none).batch = true ∧
    postForwardCalls (R2CSpectralState.mk true none none none) = none :=
  ⟨rfl, c10_batch_mode_aborts (R2CSpectralState.mk true none none none) rfl⟩

/-- Claim C2 evaluated on the code: because the 2-D guard in
`getSpectralDataLayout` is the double negation `!!m_cy.empty()`, (a) on the
1-D serial engine (domain `8 x 1 x 1`) the function returns an empty
BoxArray instead of the canonical `m_cx` boxes, and (b) on a 2-D engine over
two ranks (domain `8 x 8 x 1`) it returns the `m_cx` boxes unchanged, which
differ from the Swap01-unpermuted `m_cy` boxes that the claim (and the
doc comment of the function) require. -/
theorem c2_spectral_layout_bug :
    (getSpectralDataLayout (r2cConstructSerial 8 1 1 false) = ([], []) ∧
     (r2cConstructSerial 8 1 1 false).cx ≠ []) ∧
    (getSpectralDataLayout r2cState2d2ranks =
        (r2cState2d2ranks.cx, r2cState2d2ranks.dmx) ∧
     r2cState2d2ranks.cx ≠ r2cState2d2ranks.cy.map swap01Box) := by
  refine ⟨⟨?_, ?_⟩, ⟨?_, ?_⟩⟩ <;> decide

theorem intRange_nodup (lo hi : Int) : (intRange lo hi).Nodup := by
  have hinj : Function.Injective (fun n : Nat => lo + (n : Int)) := by
    intro a b h
    simp only at h
    omega
  exact List.Nodup.map hinj (List.nodup_range _)

theorem Box3.cells_nodup (b : Box3) : (Box3.cells b).Nodup := by
  unfold Box3.cells
  rw [List.nodup_flatMap]
  constructor
  · intro k _
    rw [List.nodup_flatMap]
    constructor
    · intro j _
      exact (intRange_nodup _ _).map fun a a' h => congrArg IntVect.x h
    · refine List.Pairwise.imp ?_ (intRange_nodup _ _)
      intro j j' hne x hx hx'
      obtain ⟨i, _, rfl⟩ := List.mem_map.1 hx
      obtain ⟨i', _, hmk⟩ := List.mem_map.1 hx'
      exact hne (congrArg IntVect.y hmk).symm
  · refine List.Pairwise.imp ?_ (intRange_nodup _ _)
    intro k k' hne x hx hx'
    obtain ⟨j, _, hxj⟩ := List.mem_flatMap.1 hx
    obtain ⟨i, _, rfl⟩ := List.mem_map.1 hxj
    obtain ⟨j', _, hxj'⟩ := List.mem_flatMap.1 hx'
    obtain ⟨i', _, hmk⟩ := List.mem_map.1 hxj'
    exact hne (congrArg IntVect.z hmk).symm

/-- Claim C5: in `R2C::forwardThenBackward` with `batch_mode` false, the
post-forward callback fires exactly once per spectral cell of the innermost
spectral array (the cell list has no duplicates and the invocation list
projects onto it), with indices translated to canonical order: in the 3-D
phase the internal `(z,x,y)`-ordered cell `(iz,jx,ky)` is passed as
`(jx,ky,iz)`; in the 2-D phase the internal `(y,x,z)`-ordered cell
`(iy,jx,k)` is passed as `(jx,iy,k)`; in the 1-D phase the stored indices
are passed unchanged. -/
theorem c5_post_forward_translation (b : Box3) (cyB cxB : Option Box3) :
    (∃ L, postForwardCalls ⟨false, some b, cyB, cxB⟩ = some L ∧
       L.map Prod.snd = Box3.cells b ∧
       ∀ p ∈ L, p.1 = IntVect.mk p.2.y p.2.z p.2.x) ∧
    (∃ L, postForwardCalls ⟨false, none, some b, cxB⟩ = some L ∧
       L.map Prod.snd = Box3.cells b ∧
       ∀ p ∈ L, p.1 = IntVect.mk p.2.y p.2.x p.2.z) ∧
    (∃ L, postForwardCalls ⟨false, none, none, some b⟩ = some L ∧
       L.map Prod.snd = Box3.cells b ∧
       ∀ p ∈ L, p.1 = p.2) ∧
    (Box3.cells b).Nodup := by
  refine ⟨⟨_, rfl, ?_, ?_⟩, ⟨_, rfl, ?_, ?_⟩, ⟨_, rfl, ?_, ?_⟩, Box3.cells_nodup b⟩ <;>
    simp [List.map_map, Function.comp_def]

/-- Claim C8: at destruction of an `R2C` or `R2X` engine whose axes hold
pairwise distinct plan handles across axes, every handle held by the engine
has `destroy` invoked on it exactly once: when the forward and backward
plans of an axis share a handle it is destroyed once, and when they differ
each of the two is destroyed once. -/
theorem c8_plans_destroyed_once (fwdX bwdX fwdY bwdY fwdZ bwdZ : Nat)
    (hxy : fwdX ≠ fwdY) (hxy2 : fwdX ≠ bwdY) (hxz : fwdX ≠ fwdZ) (hxz2 : fwdX ≠ bwdZ)
    (hby : bwdX ≠ fwdY) (hby2 : bwdX ≠ bwdY) (hbz : bwdX ≠ fwdZ) (hbz2 : bwdX ≠ bwdZ)
    (hyz : fwdY ≠ fwdZ) (hyz2 : fwdY ≠ bwdZ) (hbyz : bwdY ≠ fwdZ) (hbyz2 : bwdY ≠ bwdZ) :
    ∀ h ∈ [fwdX, bwdX, fwdY, bwdY, fwdZ, bwdZ],
      (planDestroySeq fwdX bwdX fwdY bwdY fwdZ bwdZ).count h = 1 := by
  intro h hmem
  simp only [List.mem_cons, List.not_mem_nil, or_false] at hmem
  by_cases ex : bwdX = fwdX <;> by_cases ey : bwdY = fwdY <;> by_cases ez : bwdZ = fwdZ <;>
    rcases hmem with rfl | rfl | rfl | rfl | rfl | rfl <;>
    simp_all [planDestroySeq, List.count_append, List.count_cons, List.count_nil,
              Ne.symm hxy, Ne.symm hxy2, Ne.symm hxz, Ne.symm hxz2,
              Ne.symm hby, Ne.symm hby2, Ne.symm hbz, Ne.symm hbz2,
              Ne.symm hyz, Ne.symm hyz2, Ne.symm hbyz, Ne.symm hbyz2]

/-- Witness for C8 at concrete handles where the y-axis forward and backward
plans share a handle and all other handles are distinct. -/
theorem c8_plans_destroyed_once_witness :
    ((1 : Nat) ≠ 3 ∧ (1 : Nat) ≠ 3 ∧ (1 : Nat) ≠ 5 ∧ (1 : Nat) ≠ 6 ∧
     (2 : Nat) ≠ 3 ∧ (2 : Nat) ≠ 3 ∧ (2 : Nat) ≠ 5 ∧ (2 : Nat) ≠ 6 ∧
     (3 : Nat) ≠ 5 ∧ (3 : Nat) ≠ 6 ∧ (3 : Nat) ≠ 5 ∧ (3 : Nat) ≠ 6) ∧
    ∀ h ∈ [1, 2, 3, 3, 5, 6], (planDestroySeq 1 2 3 3 5 6).count h = 1 :=
  ⟨by decide,
   c8_plans_destroyed_once 1 2 3 3 5 6 (by decide) (by decide) (by decide) (by decide)
     (by decide) (by decide) (by decide) (by decide) (by decide) (by decide)
     (by decide) (by decide)⟩

theorem poissonFac_eq (nd : Nat) (bc : BCPair) : poissonFac nd bc = claimFacD nd bc := by
  unfold poissonFac claimFacD
  split_ifs <;> ring

theorem poissonOffset_eq (bc : BCPair) (h : validBC bc) :
    poissonOffset bc = claimDelta bc := by
  rcases bc with ⟨a, b⟩
  cases a <;> cases b <;> simp_all [poissonOffset, claimDelta, validBC]

/-- Claim C4: for each spectral index `(i,j,k)`, the callback installed by
`Poisson::solve` computes `lambda = sum_d (2/dx_d^2)*(cos(alpha_d) - 1)`
with `alpha_d = fac_d*(index_d + delta_d)`, where `fac_d = 2 pi / Nd` for a
periodic axis and `pi / Nd` otherwise, and `delta_d` is 0 for periodic or
even-even, 0.5 for mixed even/odd, and 1 for odd-odd; it divides the
spectral value by `lambda` exactly when `lambda` is nonzero (leaving it
unchanged otherwise), and in every case then multiplies by the `R2X`
scaling factor. -/
theorem c4_poisson_callback (p : PoissonInput)
    (h0 : validBC p.bc0) (h1 : validBC p.bc1) (h2 : validBC p.bc2) :
    ∀ (i j k : Int) (v : ℂ),
      poissonSolveCallback p i j k v =
        (if claimLambda p i j k ≠ 0 then v / ((claimLambda p i j k : ℝ) : ℂ) else v) *
          ((scalingFactor (r2xDomOf p) : ℚ) : ℂ) := by
  intro i j k v
  simp only [poissonSolveCallback, claimLambda, claimAlpha,
             poissonFac_eq, poissonOffset_eq p.bc0 h0,
             poissonOffset_eq p.bc1 h1, poissonOffset_eq p.bc2 h2]

/-- Witness for C4 at the all-periodic input, spectral index `(0,0,0)`, and
unit spectral value. -/
theorem c4_poisson_callback_witness :
    (validBC poissonAllPeriodicInput.bc0 ∧
     validBC poissonAllPeriodicInput.bc1 ∧
     validBC poissonAllPeriodicInput.bc2) ∧
    poissonSolveCallback poissonAllPeriodicInput 0 0 0 1 =
      (if claimLambda poissonAllPeriodicInput 0 0 0 ≠ 0 then
         1 / ((claimLambda poissonAllPeriodicInput 0 0 0 : ℝ) : ℂ)
       else 1) *
        ((scalingFactor (r2xDomOf poissonAllPeriodicInput) : ℚ) : ℂ) :=
  ⟨⟨by decide, by decide, by decide⟩,
   c4_poisson_callback poissonAllPeriodicInput (by decide) (by decide) (by decide) 0 0 0 1⟩

/-- Claim C7: the `R2X` boundary check fails exactly on boundary-condition
arrays in which some axis has exactly one periodic endpoint; when every axis
has both or neither endpoint periodic, the check passes. -/
theorem c7_bc_check_iff :
    ∀ bc0 bc1 bc2 : BCPair,
      r2xBCCheck bc0 bc1 bc2 = false ↔
        (exactlyOnePeriodic bc0 ∨ exactlyOnePeriodic bc1 ∨ exactlyOnePeriodic bc2) := by
  decide

end AmrexFFT
